import Mathlib

/-!
Verification of the optimization run loop in `src/demonstrations/tutorial_spsa.py`.

The repository's own code is the function `run_optimizer` (lines 199-232) together
with the constant `execs_per_step` declarations at its four call sites
(lines 266, 279, 401, 456).  The optimizer strategies themselves
(`qml.SPSAOptimizer`, `qml.GradientDescentOptimizer`) are external library code:
only their construction and `step` call sites appear in the repository, so where a
claim depends on a strategy's internals the strategy is modelled from the spec
(each such definition is marked `Modelled from the spec:`).

The embedding instruments the run with two pieces of bookkeeping that the Python
code keeps implicitly: every cost-oracle invocation carries its 0-based call index
(so that call counting and "the oracle raises on its n-th call" are expressible),
and the run state records the sequence of parameter vectors produced so far (the
parameter trajectory).  Reals are embedded as `ℚ`.
-/

/-- A parameter vector: an ordered, fixed-length sequence of reals (embedded as `ℚ`). -/
abbrev Params := List ℚ

/-- Errors that can abort a run of `run_optimizer`: an error raised by the cost
oracle (tagged with the 0-based index of the failing call, propagated verbatim),
or the `ZeroDivisionError` Python raises at `step % interval` when `interval = 0`
(line 215). -/
inductive RunErr where
  | oracleError : ℕ → RunErr
  | zeroDivisionError : RunErr
deriving DecidableEq

/-- The cost oracle `cost_function`: a black-box scalar function of a parameter
vector.  The first argument is the 0-based index of the invocation, instrumentation
that lets one oracle value model stochastic behaviour and failure at a specific
call; a deterministic oracle ignores it.  A failing evaluation returns `.error`. -/
abbrev Oracle := ℕ → Params → Except RunErr ℚ

/-- A strategy's single-step operation, the `opt.step(cost_function, param)` call
of line 222: given the 0-based step index, the oracle, the number of oracle calls
issued so far and the current parameters, it returns fresh parameters and the
updated call count (or propagates an oracle error). -/
abbrev Strategy := ℕ → Oracle → ℕ → Params → Except RunErr (Params × ℕ)

/-- The run-local state of `run_optimizer`: the current parameter vector, the two
history lists, the total number of oracle invocations issued so far, and the
trajectory of parameter vectors (initial parameters plus one entry per step). -/
structure RunState where
  param : Params
  cost_history : List ℚ
  exec_history : List ℕ
  calls : ℕ
  trace : List Params
deriving DecidableEq

/-- One iteration of the `for step in range(num_steps)` body of `run_optimizer`
(lines 213-226): the status print evaluates `step % interval`, which raises
`ZeroDivisionError` when `interval = 0`; then `param = opt.step(cost_function,
param)`; then `cost_history.append(cost_function(param))` and
`exec_history.append((step + 1) * execs_per_step)`. -/
def runStep (opt : Strategy) (cost : Oracle) (interval execs : ℕ) (i : ℕ)
    (st : RunState) : Except RunErr RunState :=
  if interval = 0 then .error .zeroDivisionError
  else
    match opt i cost st.calls st.param with
    | .error err => .error err
    | .ok (p, calls) =>
      match cost calls p with
      | .error err => .error err
      | .ok y =>
        .ok { param := p,
              cost_history := st.cost_history ++ [y],
              exec_history := st.exec_history ++ [(i + 1) * execs],
              calls := calls + 1,
              trace := st.trace ++ [p] }

/-- The loop of `run_optimizer`: `k` remaining iterations, `i` the current value
of `step`. -/
def runLoop (opt : Strategy) (cost : Oracle) (interval execs : ℕ) :
    ℕ → ℕ → RunState → Except RunErr RunState
  | 0, _, st => .ok st
  | k + 1, i, st =>
    match runStep opt cost interval execs i st with
    | .error err => .error err
    | .ok st' => runLoop opt cost interval execs k (i + 1) st'

/-- The state of `run_optimizer` just after the initial monitoring evaluation
(lines 200-210): `param = init_param.copy()`, `cost_history =
[cost_function(param)]`, `exec_history = [0]`, one oracle call issued. -/
def initialState (initp : Params) (y0 : ℚ) : RunState :=
  { param := initp, cost_history := [y0], exec_history := [0], calls := 1,
    trace := [initp] }

/-- The function run_optimizer(opt, cost_function, init_param, num_steps,
interval, execs_per_step) of lines 199-232: copy the initial parameters, record
the cost at
the initial parameters paired with a cumulative count of 0, run the loop, return
`(cost_history, exec_history)`.  `num_steps` is an integer and `range(num_steps)`
is empty when it is negative, hence the `Int.toNat`.  An uncaught exception
(oracle failure or modulo by zero) is the `.error` outcome. -/
def run_optimizer (opt : Strategy) (cost : Oracle) (init_param : Params)
    (num_steps : ℤ) (interval execs : ℕ) : Except RunErr (List ℚ × List ℕ) :=
  match cost 0 init_param with
  | .error err => .error err
  | .ok y0 =>
    match runLoop opt cost interval execs num_steps.toNat 0
        (initialState init_param y0) with
    | .error err => .error err
    | .ok st => .ok (st.cost_history, st.exec_history)

/-- Variant of the loop that, instead of discarding the run-local state when an
exception aborts the run, returns the state as it was at the moment the exception
was raised, paired with the exception.  In Python the local lists exist at that
moment but are lost to the caller; this variant makes them observable. -/
def runLoopTraced (opt : Strategy) (cost : Oracle) (interval execs : ℕ) :
    ℕ → ℕ → RunState → RunState × Option RunErr
  | 0, _, st => (st, none)
  | k + 1, i, st =>
    match runStep opt cost interval execs i st with
    | .error err => (st, some err)
    | .ok st' => runLoopTraced opt cost interval execs k (i + 1) st'

/-- The run with the abort-time state made observable (see `runLoopTraced`). -/
def run_optimizer_traced (opt : Strategy) (cost : Oracle) (init_param : Params)
    (num_steps : ℤ) (interval execs : ℕ) : RunState × Option RunErr :=
  match cost 0 init_param with
  | .error err =>
    ({ param := init_param, cost_history := [], exec_history := [], calls := 0,
       trace := [] }, some err)
  | .ok y0 =>
    runLoopTraced opt cost interval execs num_steps.toNat 0
      (initialState init_param y0)

/-- Modelled from the spec: the single update step of the SPSA strategy
(`qml.SPSAOptimizer.step`, external library code whose only traces in the
repository are its construction at lines 264 and 453 and the `opt.step` call at
line 222), following §4.2 of the spec: evaluate the oracle at `θ + c_k·Δ` and
`θ − c_k·Δ` with the same Rademacher draw `Δ`, form
`g_scale = (y_plus − y_minus) / (2 c_k)` and update
`θ_i ← θ_i − a_k · g_scale · Δ_i`.  The decayed scalars `a_k`, `c_k` are taken as
arguments because their decay schedule uses non-rational powers. -/
def spsa_single_step (ak ck : ℚ) (Δ : List ℤ) (cost : Oracle) (calls : ℕ)
    (θ : Params) : Except RunErr (Params × ℕ) :=
  let θplus := (List.zip θ Δ).map (fun td => td.1 + ck * (td.2 : ℚ))
  let θminus := (List.zip θ Δ).map (fun td => td.1 - ck * (td.2 : ℚ))
  match cost calls θplus with
  | .error err => .error err
  | .ok yplus =>
    match cost (calls + 1) θminus with
    | .error err => .error err
    | .ok yminus =>
      let gscale := (yplus - yminus) / (2 * ck)
      .ok ((List.zip θ Δ).map (fun td => td.1 - ak * gscale * (td.2 : ℚ)),
        calls + 2)

/-- Modelled from the spec: one component of the seedable Rademacher perturbation
source of §4.2 and §9 (the script instead seeds numpy's hidden global state at
lines 187 and 392); any deterministic function of the seed with values in
`{+1, −1}` realises the contract. -/
def rademacherDraw (seed k i : ℕ) : ℤ :=
  if ((seed + k + 1) * (i + 1)) % 2 = 0 then 1 else -1

/-- Modelled from the spec: the perturbation vector `Δ_k` of length `p` drawn at
step `k` from the seeded source. -/
def rademacherDraws (seed p : ℕ) : ℕ → List ℤ :=
  fun k => (List.range p).map (fun i => rademacherDraw seed k i)

/-- The SPSA strategy as seen by the run loop: at step `k` it performs one
`spsa_single_step` with the decayed scalars `a_k`, `c_k` and the step's
perturbation draw. -/
def spsaStrategy (ak ck : ℕ → ℚ) (Δseq : ℕ → List ℤ) : Strategy :=
  fun k cost calls θ => spsa_single_step (ak k) (ck k) (Δseq k) cost calls θ

/-- The error reported for invalid hyperparameters (spec §7 taxonomy (a)). -/
inductive ConfigError where
  | configurationError
deriving DecidableEq

/-- Configuration of the SPSA strategy as constructed at lines 264 and 453:
`qml.SPSAOptimizer(maxiter=..., c=..., a=...)`. -/
structure SPSAConfig where
  maxiter : ℕ
  c : ℚ
  a : ℚ
deriving DecidableEq

/-- Modelled from the spec: construction of the SPSA strategy
(`qml.SPSAOptimizer`, external library code; only the construction call sites are
in the repository).  Spec §7 requires non-positive `c` or `a` to be rejected with
a `ConfigurationError` at construction. -/
def mkSPSAOptimizer (maxiter : ℕ) (c a : ℚ) : Except ConfigError SPSAConfig :=
  if c ≤ 0 ∨ a ≤ 0 then .error .configurationError else .ok ⟨maxiter, c, a⟩

/-- Configuration of the gradient-descent strategy as constructed at lines 277
and 397: `qml.GradientDescentOptimizer(stepsize=...)`. -/
structure GDConfig where
  stepsize : ℚ
deriving DecidableEq

/-- Modelled from the spec: construction of the gradient-descent strategy
(`qml.GradientDescentOptimizer`, external library code; only the construction
call sites at lines 277 and 397 are in the repository).  Spec §6 requires
`stepsize: real>0` and spec §7 requires a non-positive `stepsize` to be rejected
with a `ConfigurationError` at construction. -/
def mkGradientDescentOptimizer (stepsize : ℚ) : Except ConfigError GDConfig :=
  if stepsize ≤ 0 then .error .configurationError else .ok ⟨stepsize⟩

/-- Modelled from the spec: the validation a strategy performs at its first call
(strategy internals are external library code).  Spec §7 requires a zero-length
parameter vector to be detected at construction or at the first call, never
mid-run, and spec §4.2's edge case requires `p` to be ≥ 1: a zero-length
parameter vector is reported as a `ConfigurationError` before any oracle
evaluation. -/
def strategyFirstCall (θ : Params) : Except ConfigError Params :=
  if θ.length = 0 then .error .configurationError else .ok θ

/-- Line 266: `execs_per_step = 2` for the sampling-device SPSA run. -/
def execs_per_step_spsa_sampling : ℕ := 2

/-- Line 399-401 and 455-456: the `H₂` Hamiltonian has 15 terms. -/
def num_hamiltonian_terms : ℕ := 15

/-- Line 456: `execs_per_step = 2 * 15` for the VQE SPSA run. -/
def execs_per_step_spsa_vqe : ℕ := 2 * num_hamiltonian_terms

/-- Line 279: `execs_per_step = 2 * np.prod(param_shape)` for the sampling-device
gradient-descent run. -/
def execs_per_step_grad (param_shape : List ℕ) : ℕ := 2 * param_shape.prod

/-- Line 393: `param_shape = (2, num_qubits, 3)` with `num_qubits = 4` (the `H₂`
Hamiltonian uses 4 qubits, line 331). -/
def param_shape_vqe : List ℕ := [2, 4, 3]

/-- Line 401: `execs_per_step = 2 * 15 * np.prod(param_shape)` for the VQE
gradient-descent run. -/
def execs_per_step_grad_vqe : ℕ :=
  2 * num_hamiltonian_terms * param_shape_vqe.prod

/-- The number `p` of free parameters of a parameter array of the given shape. -/
def num_params (shape : List ℕ) : ℕ := shape.prod

/-- A deterministic oracle that always evaluates to 0 and never fails, used in
concrete instantiations. -/
def zeroOracle : Oracle := fun _ _ => .ok 0

/-- An oracle that raises on its third call (0-based call index 2) and evaluates
to 0 everywhere else, the scenario of spec §8's oracle-failure property. -/
def thirdCallFails : Oracle := fun k _ =>
  if k = 2 then .error (.oracleError 2) else .ok 0

/-- A constant decay schedule used in concrete instantiations. -/
def sampleSchedule : ℕ → ℚ := fun _ => 1

/-- A concrete SPSA strategy instance (constant schedules, seed 50 as at
line 187, one-dimensional parameters). -/
def sampleSPSA : Strategy :=
  spsaStrategy sampleSchedule sampleSchedule (rademacherDraws 50 1)

/-- A heap of parameter vectors, used to express the aliasing discipline of
`run_optimizer`: distinct numpy arrays are distinct cells. -/
structure Heap where
  cells : List Params
deriving DecidableEq

/-- Read the array stored in cell `r`. -/
def Heap.read (h : Heap) (r : ℕ) : Params := h.cells.getD r []

/-- Overwrite the array stored in cell `r` in place. -/
def Heap.write (h : Heap) (r : ℕ) (v : Params) : Heap := ⟨h.cells.set r v⟩

/-- Allocate a fresh cell holding `v`; returns the new heap and the fresh cell's
index. -/
def Heap.alloc (h : Heap) (v : Params) : Heap × ℕ :=
  (⟨h.cells ++ [v]⟩, h.cells.length)

/-- Run-local state of the heap-level run: the heap plus the histories and call
count. -/
structure HState where
  heap : Heap
  cost_history : List ℚ
  exec_history : List ℕ
  calls : ℕ
deriving DecidableEq

/-- Heap-level version of `runStep`: the current parameters live in cell `pref`
(the run loop's own copy); the strategy produces a fresh vector per step (spec §3)
which the loop stores back into its own cell. -/
def runStepHeap (opt : Strategy) (cost : Oracle) (interval execs pref i : ℕ)
    (s : HState) : Except RunErr HState :=
  if interval = 0 then .error .zeroDivisionError
  else
    match opt i cost s.calls (s.heap.read pref) with
    | .error err => .error err
    | .ok (p, calls) =>
      match cost calls p with
      | .error err => .error err
      | .ok y =>
        .ok { heap := s.heap.write pref p,
              cost_history := s.cost_history ++ [y],
              exec_history := s.exec_history ++ [(i + 1) * execs],
              calls := calls + 1 }

/-- Heap-level version of `runLoop`. -/
def runLoopHeap (opt : Strategy) (cost : Oracle) (interval execs pref : ℕ) :
    ℕ → ℕ → HState → Except RunErr HState
  | 0, _, s => .ok s
  | k + 1, i, s =>
    match runStepHeap opt cost interval execs pref i s with
    | .error err => .error err
    | .ok s' => runLoopHeap opt cost interval execs pref k (i + 1) s'

/-- Heap-level version of `run_optimizer`: the caller's initial parameters live in
cell `init_ref`; line 201 `param = init_param.copy()` allocates a fresh cell
holding a copy, and all subsequent writes go to that fresh cell. -/
def run_optimizer_heap (opt : Strategy) (cost : Oracle) (h0 : Heap)
    (init_ref : ℕ) (num_steps : ℤ) (interval execs : ℕ) :
    Except RunErr (Heap × List ℚ × List ℕ) :=
  let ap := Heap.alloc h0 (h0.read init_ref)
  match cost 0 (ap.1.read ap.2) with
  | .error err => .error err
  | .ok y0 =>
    match runLoopHeap opt cost interval execs ap.2 num_steps.toNat 0
        ⟨ap.1, [y0], [0], 1⟩ with
    | .error err => .error err
    | .ok s => .ok (s.heap, s.cost_history, s.exec_history)

/-- A trivial strategy that issues no oracle calls and returns the parameters
unchanged, used in concrete instantiations of properties that hold for every
strategy. -/
def idStrategy : Strategy := fun _ _ calls θ => .ok (θ, calls)

instance {ε α : Type} [DecidableEq ε] [DecidableEq α] : DecidableEq (Except ε α) :=
  fun x y =>
  match x, y with
  | .error e, .error e' =>
    if h : e = e' then .isTrue (by rw [h]) else
      .isFalse (by intro hc; cases hc; exact h rfl)
  | .error _, .ok _ => .isFalse (by intro hc; cases hc)
  | .ok _, .error _ => .isFalse (by intro hc; cases hc)
  | .ok a, .ok a' =>
    if h : a = a' then .isTrue (by rw [h]) else
      .isFalse (by intro hc; cases hc; exact h rfl)

/-! ### Helper lemmas about the run loop -/

/-- A successful loop iteration appends exactly one cost value, the exec entry
`(i + 1) * execs`, and one trajectory entry. -/
theorem runStep_ok (opt : Strategy) (cost : Oracle) (interval execs i : ℕ)
    (st st' : RunState) (h : runStep opt cost interval execs i st = .ok st') :
    ∃ y p, st'.cost_history = st.cost_history ++ [y] ∧
      st'.exec_history = st.exec_history ++ [(i + 1) * execs] ∧
      st'.trace = st.trace ++ [p] := by
  unfold runStep at h
  split at h
  · cases h
  · split at h
    · cases h
    next p calls heq =>
      split at h
      · cases h
      next y heq2 =>
        cases h
        exact ⟨y, p, rfl, rfl, rfl⟩

/-- A successful run of the loop appends one cost-history entry, one trajectory
entry and the exec entry `(i + j + 1) * execs` per iteration. -/
theorem runLoop_ok_spec (opt : Strategy) (cost : Oracle) (interval execs : ℕ) :
    ∀ (k i : ℕ) (st st' : RunState),
      runLoop opt cost interval execs k i st = .ok st' →
      ∃ lc lt, st'.cost_history = st.cost_history ++ lc ∧ lc.length = k ∧
        st'.exec_history = st.exec_history ++
          (List.range k).map (fun j => (i + j + 1) * execs) ∧
        st'.trace = st.trace ++ lt ∧ lt.length = k := by
  intro k
  induction k with
  | zero =>
    intro i st st' h
    simp only [runLoop] at h
    cases h
    exact ⟨[], [], by simp, rfl, by simp, by simp, rfl⟩
  | succ k ih =>
    intro i st st' h
    simp only [runLoop] at h
    split at h
    · cases h
    next st1 heq =>
      obtain ⟨lc, lt, hc, hcl, he, ht, htl⟩ := ih (i + 1) st1 st' h
      obtain ⟨y, p, hc1, he1, ht1⟩ := runStep_ok opt cost interval execs i st st1 heq
      have harg : (fun j => (i + 1 + j + 1) * execs) =
          (fun j => (i + (j + 1) + 1) * execs) := by
        funext j
        congr 1
        omega
      refine ⟨y :: lc, p :: lt, ?_, by simp [hcl], ?_, ?_, by simp [htl]⟩
      · rw [hc, hc1]
        simp
      · rw [he, he1, List.append_assoc, List.range_succ_eq_map, List.map_cons,
          List.map_map]
        congr 1
        simp only [Function.comp_def, List.singleton_append, Nat.add_zero]
        rw [harg]
      · rw [ht, ht1]
        simp

/-- Shape of a successful `run_optimizer` call: the initial oracle evaluation
heads the cost history, and the exec history is `[0 * e, 1 * e, ..., n * e]`. -/
theorem run_optimizer_ok_spec (opt : Strategy) (cost : Oracle) (initp : Params)
    (n : ℤ) (interval execs : ℕ) (ch : List ℚ) (eh : List ℕ)
    (h : run_optimizer opt cost initp n interval execs = .ok (ch, eh)) :
    ∃ y0, cost 0 initp = .ok y0 ∧
      ch.length = n.toNat + 1 ∧ ch.head? = some y0 ∧
      eh = (List.range (n.toNat + 1)).map (fun j => j * execs) := by
  unfold run_optimizer at h
  split at h
  · cases h
  next y0 heq =>
    split at h
    · cases h
    next st heq2 =>
      injection h with h'
      rw [Prod.mk.injEq] at h'
      obtain ⟨hch, heh⟩ := h'
      obtain ⟨lc, lt, hc, hcl, he, ht, htl⟩ :=
        runLoop_ok_spec opt cost interval execs n.toNat 0 (initialState initp y0) st heq2
      refine ⟨y0, heq, ?_, ?_, ?_⟩
      · rw [← hch, hc]
        simp [initialState, hcl]
      · rw [← hch, hc]
        simp [initialState]
      · rw [← heh, he, List.range_succ_eq_map, List.map_cons, List.map_map]
        simp only [initialState, Function.comp_def, Nat.zero_add, Nat.zero_mul,
          List.singleton_append]

/-- In a successful run, successive exec-history entries differ by exactly
`execs`. -/
theorem run_exec_diff_chain (opt : Strategy) (cost : Oracle) (initp : Params)
    (n : ℤ) (interval execs : ℕ) (ch : List ℚ) (eh : List ℕ)
    (h : run_optimizer opt cost initp n interval execs = .ok (ch, eh)) :
    List.Chain' (fun x y => y = x + execs) eh := by
  obtain ⟨y0, -, -, -, heh⟩ :=
    run_optimizer_ok_spec opt cost initp n interval execs ch eh h
  rw [heh, List.chain'_map, List.chain'_range_succ]
  intro m _
  exact Nat.succ_mul m execs

/-! ### Claim theorems -/

/-- C1 counterexample: the claim states that the per-step oracle-call cost
declared to the run loop for SPSA is 2; at the second SPSA call site (the VQE run,
line 456) the declared cost is `2 * 15 = 30`, not 2. -/
theorem spsa_vqe_declared_cost_not_two :
    execs_per_step_spsa_vqe = 30 ∧ execs_per_step_spsa_vqe ≠ 2 := by decide

/-- C1 (amended): every successful SPSA step issues exactly 2 oracle evaluations,
for a parameter vector of any length `p`; the per-step cost declared to the run
loop is 2 circuit executions per Hamiltonian term — 2 at the sampling-device call
site (line 266) and `2 * 15` at the 15-term VQE call site (line 456) — in both
cases independent of `p`. -/
theorem spsa_step_two_evals (ak ck : ℚ) (Δ : List ℤ) (cost : Oracle)
    (calls : ℕ) (θ θ' : Params) (calls' : ℕ)
    (h : spsa_single_step ak ck Δ cost calls θ = .ok (θ', calls')) :
    calls' = calls + 2 ∧ execs_per_step_spsa_sampling = 2 ∧
    execs_per_step_spsa_vqe = 2 * num_hamiltonian_terms := by
  refine ⟨?_, rfl, rfl⟩
  simp only [spsa_single_step] at h
  split at h
  · cases h
  next yplus heq =>
    split at h
    · cases h
    next yminus heq2 =>
      cases h
      rfl

/-- Witness for C1: a concrete SPSA step on a 1-dimensional parameter vector
issues exactly 2 evaluations. -/
theorem spsa_step_two_evals_witness :
    spsa_single_step 1 1 [1] zeroOracle 0 [1] = .ok ([1], 2) ∧
    (2 = 0 + 2 ∧ execs_per_step_spsa_sampling = 2 ∧
      execs_per_step_spsa_vqe = 2 * num_hamiltonian_terms) :=
  ⟨by simp [spsa_single_step, zeroOracle],
   spsa_step_two_evals 1 1 [1] zeroOracle 0 [1] [1] 2
     (by simp [spsa_single_step, zeroOracle])⟩

/-- C2: for every valid configuration (`num_steps ≥ 0`) and every completed run,
`cost_history` and `exec_history` each contain exactly `num_steps + 1` entries;
the initial entry is the cost evaluated at the initial parameters, paired with a
cumulative call count of 0. -/
theorem run_histories_length_and_heads (opt : Strategy) (cost : Oracle)
    (initp : Params) (n : ℤ) (interval execs : ℕ) (ch : List ℚ) (eh : List ℕ)
    (hn : 0 ≤ n)
    (h : run_optimizer opt cost initp n interval execs = .ok (ch, eh)) :
    (ch.length : ℤ) = n + 1 ∧ (eh.length : ℤ) = n + 1 ∧
    eh.head? = some 0 ∧ ∃ y0, cost 0 initp = .ok y0 ∧ ch.head? = some y0 := by
  obtain ⟨y0, hc0, hlen, hhead, heh⟩ :=
    run_optimizer_ok_spec opt cost initp n interval execs ch eh h
  have htn : (n.toNat : ℤ) = n := Int.toNat_of_nonneg hn
  refine ⟨?_, ?_, ?_, y0, hc0, hhead⟩
  · rw [hlen]
    push_cast [htn]
    ring
  · rw [heh]
    simp only [List.length_map, List.length_range]
    push_cast [htn]
    ring
  · rw [heh, List.range_succ_eq_map]
    simp

/-- Witness for C2: a concrete completed 1-step run has histories of length 2,
initial exec entry 0 and initial cost entry the cost at the initial parameters. -/
theorem run_histories_length_and_heads_witness :
    (([0, 0] : List ℚ).length : ℤ) = 1 + 1 ∧
    (([0, 2] : List ℕ).length : ℤ) = 1 + 1 ∧
    ([0, 2] : List ℕ).head? = some 0 ∧
    ∃ y0, zeroOracle 0 [1] = .ok y0 ∧ ([0, 0] : List ℚ).head? = some y0 :=
  run_histories_length_and_heads idStrategy zeroOracle [1] 1 1 2 [0, 0] [0, 2]
    (by decide) rfl

/-- C3: in every completed run with a positive declared per-step cost (every call
site in the script declares a positive one: 2, 120, 30 and 720), `exec_history`
is non-decreasing, strictly increasing at every step, and each successive entry
exceeds the previous one by exactly `execs_per_step`. -/
theorem exec_history_monotone_increments (opt : Strategy) (cost : Oracle)
    (initp : Params) (n : ℤ) (interval execs : ℕ) (ch : List ℚ) (eh : List ℕ)
    (hpos : 0 < execs)
    (h : run_optimizer opt cost initp n interval execs = .ok (ch, eh)) :
    List.Chain' (· ≤ ·) eh ∧ List.Chain' (· < ·) eh ∧
    List.Chain' (fun x y => y = x + execs) eh := by
  have hdiff := run_exec_diff_chain opt cost initp n interval execs ch eh h
  refine ⟨hdiff.imp ?_, hdiff.imp ?_, hdiff⟩
  · intro a b hab
    omega
  · intro a b hab
    omega

/-- Witness for C3: the exec history of a concrete completed run is strictly
increasing with increments of exactly 2. -/
theorem exec_history_monotone_increments_witness :
    List.Chain' (· ≤ ·) ([0, 2] : List ℕ) ∧
    List.Chain' (· < ·) ([0, 2] : List ℕ) ∧
    List.Chain' (fun x y => y = x + 2) ([0, 2] : List ℕ) :=
  exec_history_monotone_increments idStrategy zeroOracle [1] 1 1 2 [0, 0] [0, 2]
    (by decide) rfl

/-- C4 counterexample: the claim states the per-step cost charged to the
accounting for gradient descent is exactly `2 * p`; at the VQE gradient-descent
call site (line 401) the declared cost is `2 * 15 * p = 720` for `p = 24` free
parameters, not `2 * p = 48`. -/
theorem grad_vqe_declared_cost_not_two_p :
    execs_per_step_grad_vqe = 720 ∧ num_params param_shape_vqe = 24 ∧
    execs_per_step_grad_vqe ≠ 2 * num_params param_shape_vqe := by decide

/-- C4 (amended): gradient-descent accounting charges `2 * p` circuit executions
per Hamiltonian term and per step: at the sampling-device call site (line 279)
every completed run's exec history grows by exactly `2 * p` each step, and at the
15-term VQE call site (line 401) the declared per-step cost is
`2 * 15 * p`. -/
theorem grad_declared_cost_accounting (opt : Strategy) (cost : Oracle)
    (initp : Params) (n : ℤ) (interval : ℕ) (shape : List ℕ)
    (ch : List ℚ) (eh : List ℕ)
    (h : run_optimizer opt cost initp n interval (execs_per_step_grad shape) =
      .ok (ch, eh)) :
    List.Chain' (fun x y => y = x + 2 * num_params shape) eh ∧
    execs_per_step_grad_vqe =
      2 * num_hamiltonian_terms * num_params param_shape_vqe :=
  ⟨run_exec_diff_chain opt cost initp n interval (execs_per_step_grad shape)
      ch eh h, rfl⟩

/-- Witness for C4: a concrete completed gradient-descent-accounted run over a
shape with one free parameter charges increments of exactly `2 * 1`. -/
theorem grad_declared_cost_accounting_witness :
    List.Chain' (fun x y => y = x + 2 * num_params [1]) ([0, 2] : List ℕ) ∧
    execs_per_step_grad_vqe =
      2 * num_hamiltonian_terms * num_params param_shape_vqe :=
  grad_declared_cost_accounting idStrategy zeroOracle [1] 1 1 [1] [0, 0] [0, 2]
    rfl

/-- If the oracle never fails, an SPSA step succeeds and issues exactly 2
evaluations. -/
theorem spsa_step_succeeds (ak ck : ℚ) (Δ : List ℤ) (cost : Oracle) (calls : ℕ)
    (θ : Params) (hok : ∀ m p, ∃ y, cost m p = .ok y) :
    ∃ θ', spsa_single_step ak ck Δ cost calls θ = .ok (θ', calls + 2) := by
  obtain ⟨y1, h1⟩ :=
    hok calls ((List.zip θ Δ).map (fun td => td.1 + ck * (td.2 : ℚ)))
  obtain ⟨y2, h2⟩ :=
    hok (calls + 1) ((List.zip θ Δ).map (fun td => td.1 - ck * (td.2 : ℚ)))
  refine ⟨(List.zip θ Δ).map
    (fun td => td.1 - ak * ((y1 - y2) / (2 * ck)) * (td.2 : ℚ)), ?_⟩
  simp [spsa_single_step, h1, h2]

/-- If the oracle never fails and `interval ≠ 0`, a loop iteration driving the
SPSA strategy succeeds, issues exactly 3 evaluations (2 inside the step plus the
monitoring one) and records only the declared per-step cost. -/
theorem runStep_spsa_succeeds (ak ck : ℕ → ℚ) (Δseq : ℕ → List ℤ)
    (cost : Oracle) (interval execs : ℕ) (hint : interval ≠ 0)
    (hok : ∀ m p, ∃ y, cost m p = .ok y) (i : ℕ) (st : RunState) :
    ∃ st', runStep (spsaStrategy ak ck Δseq) cost interval execs i st = .ok st' ∧
      st'.calls = st.calls + 3 ∧
      st'.exec_history = st.exec_history ++ [(i + 1) * execs] := by
  obtain ⟨θ', hs⟩ :=
    spsa_step_succeeds (ak i) (ck i) (Δseq i) cost st.calls st.param hok
  obtain ⟨y3, h3⟩ := hok (st.calls + 2) θ'
  have hstep : runStep (spsaStrategy ak ck Δseq) cost interval execs i st = .ok
      { param := θ', cost_history := st.cost_history ++ [y3],
        exec_history := st.exec_history ++ [(i + 1) * execs],
        calls := st.calls + 2 + 1, trace := st.trace ++ [θ'] } := by
    unfold runStep
    rw [if_neg hint]
    simp only [spsaStrategy, hs, h3]
  exact ⟨_, hstep, rfl, rfl⟩

/-- If the oracle never fails and `interval ≠ 0`, the traced loop driving the
SPSA strategy completes, issues exactly `3 k` evaluations over `k` iterations,
and appends only the declared `(i + j + 1) * execs` entries. -/
theorem runLoopTraced_spsa_ok (ak ck : ℕ → ℚ) (Δseq : ℕ → List ℤ)
    (cost : Oracle) (interval execs : ℕ) (hint : interval ≠ 0)
    (hok : ∀ m p, ∃ y, cost m p = .ok y) :
    ∀ (k i : ℕ) (st : RunState),
      ∃ st', runLoopTraced (spsaStrategy ak ck Δseq) cost interval execs k i st =
          (st', none) ∧
        st'.calls = st.calls + 3 * k ∧
        st'.exec_history = st.exec_history ++
          (List.range k).map (fun j => (i + j + 1) * execs) := by
  intro k
  induction k with
  | zero =>
    intro i st
    exact ⟨st, rfl, by omega, by simp⟩
  | succ k ih =>
    intro i st
    obtain ⟨st1, hstep, hcalls1, hexec1⟩ :=
      runStep_spsa_succeeds ak ck Δseq cost interval execs hint hok i st
    obtain ⟨st', hrun, hcalls, hexec⟩ := ih (i + 1) st1
    refine ⟨st', ?_, by omega, ?_⟩
    · simp only [runLoopTraced, hstep]
      exact hrun
    · rw [hexec, hexec1, List.append_assoc, List.range_succ_eq_map,
        List.map_cons, List.map_map]
      congr 1
      simp only [Function.comp_def, List.singleton_append, Nat.add_zero]
      have harg : (fun j => (i + 1 + j + 1) * execs) =
          (fun j => (i + (j + 1) + 1) * execs) := by
        funext j
        congr 1
        omega
      rw [harg]

/-- C5 counterexample: in a concrete completed 1-step SPSA run, 4 oracle
evaluations are issued (the initial monitoring one, 2 inside the step, and the
per-step monitoring one), yet the recorded cumulative counts are `[0, 2]`: the
run loop's own monitoring evaluations are never included in `exec_history`, whose
final entry (2) differs from the number of evaluations issued (4). -/
theorem monitoring_calls_not_recorded :
    (run_optimizer_traced sampleSPSA zeroOracle [1] 1 1 2).2 = none ∧
    (run_optimizer_traced sampleSPSA zeroOracle [1] 1 1 2).1.calls = 4 ∧
    (run_optimizer_traced sampleSPSA zeroOracle [1] 1 1 2).1.exec_history =
      [0, 2] ∧
    (2 : ℕ) ≠ 4 :=
  ⟨rfl, rfl, rfl, by decide⟩

/-- C5 (amended): only the declared per-step strategy cost is recorded: in every
completed SPSA run the entries of `exec_history` are exactly
`0, execs, 2 * execs, ...`, while the number of oracle evaluations actually
issued is `3 * num_steps + 1` (two per step inside the strategy plus the
`num_steps + 1` monitoring evaluations of the run loop, which are issued but
never counted in the recorded cumulative totals). -/
theorem exec_history_counts_only_declared_cost (ak ck : ℕ → ℚ)
    (Δseq : ℕ → List ℤ) (cost : Oracle) (initp : Params) (n : ℤ)
    (interval execs : ℕ) (hint : interval ≠ 0)
    (hok : ∀ m p, ∃ y, cost m p = .ok y) :
    (run_optimizer_traced (spsaStrategy ak ck Δseq) cost initp n interval
      execs).2 = none ∧
    (run_optimizer_traced (spsaStrategy ak ck Δseq) cost initp n interval
      execs).1.calls = 3 * n.toNat + 1 ∧
    (run_optimizer_traced (spsaStrategy ak ck Δseq) cost initp n interval
      execs).1.exec_history =
      (List.range (n.toNat + 1)).map (fun j => j * execs) := by
  obtain ⟨y0, h0⟩ := hok 0 initp
  obtain ⟨st', hrun, hcalls, hexec⟩ :=
    runLoopTraced_spsa_ok ak ck Δseq cost interval execs hint hok n.toNat 0
      (initialState initp y0)
  have hres : run_optimizer_traced (spsaStrategy ak ck Δseq) cost initp n
      interval execs = (st', none) := by
    unfold run_optimizer_traced
    rw [h0]
    exact hrun
  rw [hres]
  dsimp only
  refine ⟨rfl, ?_, ?_⟩
  · simp only [initialState] at hcalls
    omega
  · rw [hexec, List.range_succ_eq_map, List.map_cons, List.map_map]
    simp only [initialState, Function.comp_def, Nat.zero_add, Nat.zero_mul,
      List.singleton_append]

/-- Witness for C5: the concrete 1-step SPSA run completes with `3 * 1 + 1`
evaluations issued while the recorded totals are `0, 2`. -/
theorem exec_history_counts_only_declared_cost_witness :
    (run_optimizer_traced (spsaStrategy sampleSchedule sampleSchedule
      (rademacherDraws 50 1)) zeroOracle [1] 1 1 2).2 = none ∧
    (run_optimizer_traced (spsaStrategy sampleSchedule sampleSchedule
      (rademacherDraws 50 1)) zeroOracle [1] 1 1 2).1.calls =
      3 * (1 : ℤ).toNat + 1 ∧
    (run_optimizer_traced (spsaStrategy sampleSchedule sampleSchedule
      (rademacherDraws 50 1)) zeroOracle [1] 1 1 2).1.exec_history =
      (List.range ((1 : ℤ).toNat + 1)).map (fun j => j * 2) :=
  exec_history_counts_only_declared_cost sampleSchedule sampleSchedule
    (rademacherDraws 50 1) zeroOracle [1] 1 1 2 (by decide)
    (fun m p => ⟨0, rfl⟩)

/-- Writing one cell leaves every other cell unchanged. -/
theorem heap_write_read_ne (h : Heap) (r s : ℕ) (v : Params) (hne : r ≠ s) :
    (h.write s v).read r = h.read r := by
  unfold Heap.write Heap.read
  simp [List.getD_eq_getElem?_getD, List.getElem?_set_ne (Ne.symm hne)]

/-- Allocation leaves every existing cell unchanged. -/
theorem heap_alloc_read (h : Heap) (r : ℕ) (v : Params)
    (hr : r < h.cells.length) : (Heap.alloc h v).1.read r = h.read r := by
  unfold Heap.alloc Heap.read
  simp [List.getD_eq_getElem?_getD, List.getElem?_append_left hr]

/-- The heap-level loop writes only to the run loop's own cell `pref`: every
other cell is preserved across a successful run of the loop. -/
theorem runLoopHeap_preserves_cell (opt : Strategy) (cost : Oracle)
    (interval execs pref r : ℕ) (hne : r ≠ pref) :
    ∀ (k i : ℕ) (s s' : HState),
      runLoopHeap opt cost interval execs pref k i s = .ok s' →
      s'.heap.read r = s.heap.read r := by
  intro k
  induction k with
  | zero =>
    intro i s s' h
    simp only [runLoopHeap] at h
    cases h
    rfl
  | succ k ih =>
    intro i s s' h
    simp only [runLoopHeap] at h
    split at h
    · cases h
    next s1 heq =>
      have h1 : s1.heap.read r = s.heap.read r := by
        unfold runStepHeap at heq
        split at heq
        · cases heq
        · split at heq
          · cases heq
          next p calls hopt =>
            split at heq
            · cases heq
            next y hcost =>
              cases heq
              exact heap_write_read_ne s.heap r pref p hne
      rw [ih (i + 1) s1 s' h, h1]

/-- C6: the caller-supplied initial parameter vector is copied before use (line
201) and never mutated: after a completed run, for every strategy and every
oracle, the caller's cell holds exactly the values it held before the call. -/
theorem init_param_never_mutated (opt : Strategy) (cost : Oracle) (h0 : Heap)
    (init_ref : ℕ) (n : ℤ) (interval execs : ℕ) (h' : Heap)
    (ch : List ℚ) (eh : List ℕ)
    (hr : init_ref < h0.cells.length)
    (h : run_optimizer_heap opt cost h0 init_ref n interval execs =
      .ok (h', ch, eh)) :
    h'.read init_ref = h0.read init_ref := by
  have hne : init_ref ≠ h0.cells.length := Nat.ne_of_lt hr
  simp only [run_optimizer_heap] at h
  split at h
  · cases h
  next y0 heq =>
    split at h
    · cases h
    next s hloop =>
      injection h with h2
      rw [Prod.mk.injEq] at h2
      obtain ⟨hh, -⟩ := h2
      have hpres := runLoopHeap_preserves_cell opt cost interval execs
        (Heap.alloc h0 (h0.read init_ref)).2 init_ref hne n.toNat 0
        ⟨(Heap.alloc h0 (h0.read init_ref)).1, [y0], [0], 1⟩ s hloop
      rw [← hh, hpres]
      exact heap_alloc_read h0 init_ref (h0.read init_ref) hr

/-- Witness for C6: a concrete completed 1-step run started from the heap cell
holding `[5]` leaves that cell unchanged. -/
theorem init_param_never_mutated_witness :
    Heap.read ⟨[[5], [5]]⟩ 0 = Heap.read ⟨[[5]]⟩ 0 :=
  init_param_never_mutated idStrategy zeroOracle ⟨[[5]]⟩ 0 1 1 2 ⟨[[5], [5]]⟩
    [0, 0] [0, 2] (by decide) rfl

/-- C7 counterexample: the claim states that `num_steps < 0` is detected at
construction or at the first call and reported as a ConfigurationError; instead a
call of `run_optimizer` with `num_steps = -1` completes normally (the loop body
never runs) and returns single-entry histories — no error of any kind is
raised. -/
theorem negative_num_steps_completes_without_error :
    run_optimizer sampleSPSA zeroOracle [1] (-1) 20 2 = .ok ([0], [0]) := rfl

/-- C7 (amended): invalid hyperparameters are detected where the strategies see
them and reported as a ConfigurationError, never mid-run (all strategy-side
validation is external library code, modelled from the spec): non-positive `c`
or `a` are rejected at SPSA construction — in particular constructing SPSA with
`c = 0` fails rather than proceeding to a division by zero — non-positive
`stepsize` is rejected at gradient-descent construction, and a zero-length
parameter vector is rejected at the strategy's first call, before any oracle
evaluation; the run loop itself, however, performs no validation of `num_steps`:
for every strategy and oracle, `run_optimizer` with `num_steps < 0` completes
normally with single-entry histories instead of reporting a
ConfigurationError. -/
theorem spsa_config_rejected_but_runloop_unvalidated (maxiter : ℕ)
    (c a stepsize : ℚ) (θ : Params)
    (hca : c ≤ 0 ∨ a ≤ 0) (hs : stepsize ≤ 0) (hθ : θ.length = 0) :
    mkSPSAOptimizer maxiter c a = .error .configurationError ∧
    mkGradientDescentOptimizer stepsize = .error .configurationError ∧
    strategyFirstCall θ = .error .configurationError ∧
    ∀ (opt : Strategy) (cost : Oracle) (initp : Params) (n : ℤ)
      (interval execs : ℕ) (y0 : ℚ), n < 0 → cost 0 initp = .ok y0 →
      run_optimizer opt cost initp n interval execs = .ok ([y0], [0]) := by
  refine ⟨?_, ?_, ?_, ?_⟩
  · unfold mkSPSAOptimizer
    rw [if_pos hca]
  · unfold mkGradientDescentOptimizer
    rw [if_pos hs]
  · unfold strategyFirstCall
    rw [if_pos hθ]
  · intro opt cost initp n interval execs y0 hn h0
    have htn : n.toNat = 0 := by omega
    unfold run_optimizer
    rw [h0, htn]
    simp only [runLoop, initialState]

/-- Witness for C7: constructing SPSA with `c = 0` (and the script's
`a = 0.2`, `maxiter = 200` from line 264) is rejected, as are a gradient-descent
construction with `stepsize = -1` and a first call on the empty parameter
vector, while a concrete `num_steps = -1` run completes normally. -/
theorem spsa_config_rejected_witness :
    mkSPSAOptimizer 200 0 (1 / 5) = .error .configurationError ∧
    mkGradientDescentOptimizer (-1) = .error .configurationError ∧
    strategyFirstCall [] = .error .configurationError ∧
    run_optimizer sampleSPSA zeroOracle [1] (-1) 20 2 = .ok ([0], [0]) :=
  ⟨(spsa_config_rejected_but_runloop_unvalidated 200 0 (1 / 5) (-1) []
      (Or.inl le_rfl) (by norm_num) rfl).1,
   (spsa_config_rejected_but_runloop_unvalidated 200 0 (1 / 5) (-1) []
      (Or.inl le_rfl) (by norm_num) rfl).2.1,
   (spsa_config_rejected_but_runloop_unvalidated 200 0 (1 / 5) (-1) []
      (Or.inl le_rfl) (by norm_num) rfl).2.2.1,
   (spsa_config_rejected_but_runloop_unvalidated 200 0 (1 / 5) (-1) []
      (Or.inl le_rfl) (by norm_num) rfl).2.2.2
     sampleSPSA zeroOracle [1] (-1) 20 2 0 (by decide) rfl⟩

/-- C8 counterexample: with the SPSA strategy an oracle that raises on its third
call (0-based index 2) aborts the run during the *first* step — the third overall
evaluation is the second perturbed evaluation inside step 0 — so at abort time
`cost_history` holds exactly 1 entry (the initial one, not 3) and the trajectory
still holds only the initial parameters (0 completed steps, not 2); the error is
propagated to the caller. -/
theorem third_call_failure_aborts_first_step :
    run_optimizer sampleSPSA thirdCallFails [1] 5 1 2 =
      .error (.oracleError 2) ∧
    (run_optimizer_traced sampleSPSA thirdCallFails [1] 5 1 2).1.cost_history =
      [0] ∧
    (run_optimizer_traced sampleSPSA thirdCallFails [1] 5 1 2).1.trace =
      [[1]] ∧
    (run_optimizer_traced sampleSPSA thirdCallFails
      [1] 5 1 2).1.cost_history.length ≠ 3 :=
  ⟨rfl, rfl, rfl, by decide⟩

/-- C8 (amended): for every SPSA run whose oracle succeeds on its first two calls
and raises on its third, the run aborts during the first step with no retry and
no recovery, the oracle's error is propagated verbatim to the caller, and the
abort-time `cost_history` holds exactly 1 entry (the initial one) with no partial
entry — no step completes. -/
theorem oracle_error_propagates_verbatim (ak ck : ℕ → ℚ) (Δseq : ℕ → List ℤ)
    (cost : Oracle) (initp : Params) (n : ℤ) (interval execs : ℕ)
    (err : RunErr) (y0 y1 : ℚ)
    (hn : 1 ≤ n) (hint : interval ≠ 0)
    (h0 : cost 0 initp = .ok y0)
    (h1 : ∀ p, cost 1 p = .ok y1)
    (h2 : ∀ p, cost 2 p = .error err) :
    run_optimizer (spsaStrategy ak ck Δseq) cost initp n interval execs =
      .error err ∧
    (run_optimizer_traced (spsaStrategy ak ck Δseq) cost initp n interval
      execs).1.cost_history = [y0] ∧
    (run_optimizer_traced (spsaStrategy ak ck Δseq) cost initp n interval
      execs).1.trace = [initp] := by
  obtain ⟨m, hm⟩ : ∃ m, n.toNat = m + 1 := ⟨n.toNat - 1, by omega⟩
  have hspsa : spsaStrategy ak ck Δseq 0 cost (initialState initp y0).calls
      (initialState initp y0).param = .error err := by
    simp only [initialState, spsaStrategy, spsa_single_step, h1, h2]
  have hstep : runStep (spsaStrategy ak ck Δseq) cost interval execs 0
      (initialState initp y0) = .error err := by
    unfold runStep
    rw [if_neg hint, hspsa]
  have hloop : runLoop (spsaStrategy ak ck Δseq) cost interval execs n.toNat 0
      (initialState initp y0) = .error err := by
    rw [hm]
    simp only [runLoop, hstep]
  have hloopt : runLoopTraced (spsaStrategy ak ck Δseq) cost interval execs
      n.toNat 0 (initialState initp y0) = (initialState initp y0, some err) := by
    rw [hm]
    simp only [runLoopTraced, hstep]
  refine ⟨?_, ?_, ?_⟩
  · simp only [run_optimizer, h0, hloop]
  · simp only [run_optimizer_traced, h0]
    rw [hloopt]
    exact rfl
  · simp only [run_optimizer_traced, h0]
    rw [hloopt]
    exact rfl

/-- Witness for C8: the concrete fail-on-third-call oracle propagates its error
out of a 5-step SPSA run whose abort-time history holds only the initial
entry. -/
theorem oracle_error_propagates_verbatim_witness :
    run_optimizer (spsaStrategy sampleSchedule sampleSchedule
      (rademacherDraws 50 1)) thirdCallFails [1] 5 1 2 =
      .error (.oracleError 2) ∧
    (run_optimizer_traced (spsaStrategy sampleSchedule sampleSchedule
      (rademacherDraws 50 1)) thirdCallFails [1] 5 1 2).1.cost_history = [0] ∧
    (run_optimizer_traced (spsaStrategy sampleSchedule sampleSchedule
      (rademacherDraws 50 1)) thirdCallFails [1] 5 1 2).1.trace = [[1]] :=
  oracle_error_propagates_verbatim sampleSchedule sampleSchedule
    (rademacherDraws 50 1) thirdCallFails [1] 5 1 2 (.oracleError 2) 0 0
    (by decide) (by decide) rfl (fun p => rfl) (fun p => rfl)

/-- C9: given a seeded random source, two SPSA runs with identical configuration
(equal seeds and decay schedules), identical initial parameters and the same
deterministic oracle produce identical outcomes, including the full parameter
trajectory, `cost_history` and `exec_history`. -/
theorem spsa_seeded_runs_identical (ak ck : ℕ → ℚ) (seed1 seed2 p : ℕ)
    (cost1 cost2 : Oracle) (initp : Params) (n : ℤ) (interval execs : ℕ)
    (hseed : seed1 = seed2)
    (hdet : ∀ m m' q, cost1 m q = cost1 m' q)
    (hcost : ∀ m q, cost1 m q = cost2 m q) :
    run_optimizer (spsaStrategy ak ck (rademacherDraws seed1 p)) cost1 initp n
        interval execs =
      run_optimizer (spsaStrategy ak ck (rademacherDraws seed2 p)) cost2 initp n
        interval execs ∧
    run_optimizer_traced (spsaStrategy ak ck (rademacherDraws seed1 p)) cost1
        initp n interval execs =
      run_optimizer_traced (spsaStrategy ak ck (rademacherDraws seed2 p)) cost2
        initp n interval execs := by
  subst hseed
  have hc : cost1 = cost2 := funext fun m => funext fun q => hcost m q
  subst hc
  exact ⟨rfl, rfl⟩

/-- Witness for C9: two concrete SPSA runs with seed 50, the same configuration
and the same deterministic oracle coincide. -/
theorem spsa_seeded_runs_identical_witness :
    run_optimizer (spsaStrategy sampleSchedule sampleSchedule
        (rademacherDraws 50 1)) zeroOracle [1] 1 1 2 =
      run_optimizer (spsaStrategy sampleSchedule sampleSchedule
        (rademacherDraws 50 1)) zeroOracle [1] 1 1 2 ∧
    run_optimizer_traced (spsaStrategy sampleSchedule sampleSchedule
        (rademacherDraws 50 1)) zeroOracle [1] 1 1 2 =
      run_optimizer_traced (spsaStrategy sampleSchedule sampleSchedule
        (rademacherDraws 50 1)) zeroOracle [1] 1 1 2 :=
  spsa_seeded_runs_identical sampleSchedule sampleSchedule 50 50 1 zeroOracle
    zeroOracle [1] 1 1 2 rfl (fun m m' q => rfl) (fun m q => rfl)

/-- C10: for every strategy and every oracle whose initial evaluation succeeds,
calling `run_optimizer` with `interval = 0` and `num_steps ≥ 1` fails with the
modulo-by-zero error at the status check of the first iteration, before any
optimizer step is applied (the abort-time trajectory still holds only the initial
parameters). -/
theorem interval_zero_raises_zero_division (opt : Strategy) (cost : Oracle)
    (initp : Params) (n : ℤ) (execs : ℕ) (y0 : ℚ)
    (hn : 1 ≤ n) (h0 : cost 0 initp = .ok y0) :
    run_optimizer opt cost initp n 0 execs = .error .zeroDivisionError ∧
    (run_optimizer_traced opt cost initp n 0 execs).1.trace = [initp] ∧
    (run_optimizer_traced opt cost initp n 0 execs).2 =
      some .zeroDivisionError := by
  obtain ⟨m, hm⟩ : ∃ m, n.toNat = m + 1 := ⟨n.toNat - 1, by omega⟩
  have hstep : runStep opt cost 0 execs 0 (initialState initp y0) =
      .error .zeroDivisionError := by
    unfold runStep
    rw [if_pos rfl]
  have hloop : runLoop opt cost 0 execs n.toNat 0 (initialState initp y0) =
      .error .zeroDivisionError := by
    rw [hm]
    simp only [runLoop, hstep]
  have hloopt : runLoopTraced opt cost 0 execs n.toNat 0
      (initialState initp y0) =
      (initialState initp y0, some .zeroDivisionError) := by
    rw [hm]
    simp only [runLoopTraced, hstep]
  refine ⟨?_, ?_, ?_⟩
  · simp only [run_optimizer, h0, hloop]
  · simp only [run_optimizer_traced, h0]
    rw [hloopt]
    exact rfl
  · simp only [run_optimizer_traced, h0]
    rw [hloopt]

/-- Witness for C10: a concrete 3-step call with `interval = 0` raises the
modulo-by-zero error before any step. -/
theorem interval_zero_raises_zero_division_witness :
    run_optimizer idStrategy zeroOracle [1] 3 0 2 =
      .error .zeroDivisionError ∧
    (run_optimizer_traced idStrategy zeroOracle [1] 3 0 2).1.trace = [[1]] ∧
    (run_optimizer_traced idStrategy zeroOracle [1] 3 0 2).2 =
      some .zeroDivisionError :=
  interval_zero_raises_zero_division idStrategy zeroOracle [1] 3 2 0
    (by decide) rfl
